import Mathlib

set_option linter.unreachableTactic false
set_option linter.unnecessarySeqFocus false
set_option linter.unusedTactic false
set_option linter.unusedVariables false

/-!
Shallow embedding of the cgq effect-interpreter core (src/effect.rs,
src/collections.rs, src/game_state.rs, src/effect_executor/*) and proofs of
the specification claims about it.

Modelling conventions:
* Rust `i32` is modelled as `Int`; every place the Rust code performs an
  `as i32` / wrapping conversion applies `i32cast` (two's-complement wrap),
  and float-to-int `as` casts apply `i32ofRatSat` (truncate toward zero,
  saturating), matching Rust cast semantics.
* Rust `f32`/`f64` payloads are modelled as `Rat`.  Every comparison the
  code performs (`i32 as f64`, `f32 as f64`, then an `f64` comparison) is
  exact, so rational arithmetic coincides with the source there; only
  `Multiply` and `timer.percent_remaining` round in Rust, and no claim
  depends on their rounded results.
* `HashMap<String, V>` is modelled as an association list with
  first-match lookup and overwrite-on-insert.
* `std::time::Duration` is modelled as a nanosecond count (`Nat`).
-/

namespace Cgq

/-- Two's-complement wrap of an integer into the `i32` range, used wherever
the Rust source performs `as i32` on an integer or integer arithmetic. -/
def i32cast (n : Int) : Int := (n + 2 ^ 31) % 2 ^ 32 - 2 ^ 31

/-- Smallest `i32` value. -/
def i32min : Int := -(2 ^ 31)

/-- Largest `i32` value. -/
def i32max : Int := 2 ^ 31 - 1

/-- Truncation of a rational toward zero, the rounding used by Rust
float-to-integer `as` casts. -/
def ratTrunc (q : Rat) : Int := if q < 0 then -(⌊-q⌋) else ⌊q⌋

/-- Rust float-to-`i32` `as` cast: truncate toward zero and saturate at the
`i32` bounds. -/
def i32ofRatSat (q : Rat) : Int :=
  let t := ratTrunc q
  if t < i32min then i32min else if t > i32max then i32max else t

/-- Rust `str::split(sep)` on the character list: empty segments are kept
("" splits to [""], "a." to ["a", ""]), exactly as in Rust. -/
def splitCharsOn (sep : Char) : List Char → List (List Char)
  | [] => [[]]
  | c :: rest =>
    let r := splitCharsOn sep rest
    if c == sep then [] :: r
    else
      match r with
      | h :: t => (c :: h) :: t
      | [] => [[c]]

/-- Rust `path.split('.').collect::<Vec<&str>>()`, the path splitting used
by GameState and get_field_value. -/
def splitPath (s : String) : List String := (splitCharsOn '.' s.data).map String.mk

/-- Rust `field.strip_prefix('$')` (src/effect_executor/mod.rs:224): strip a
single leading dollar character. -/
def stripDollar (field : String) : Option String :=
  match field.data with
  | c :: rest => if c == '$' then some (String.mk rest) else none
  | [] => none

/-- Rust `str::contains(&str)` (substring test) on the character lists: true
iff the needle occurs contiguously in the haystack (an empty needle always
matches). -/
def containsSub (hay needle : List Char) : Bool :=
  needle.isPrefixOf hay ||
    (match hay with
     | [] => false
     | _ :: t => containsSub t needle)

/-- Association-list model of `HashMap<String, A>`: first-match lookup. -/
def alistGet {A : Type} (m : List (String × A)) (k : String) : Option A :=
  (m.find? (fun e => e.1 == k)).map (fun e => e.2)

/-- Association-list model of `HashMap::insert`: overwrite any existing
binding for the key. -/
def alistInsert {A : Type} (m : List (String × A)) (k : String) (v : A) :
    List (String × A) :=
  (k, v) :: m.filter (fun e => e.1 != k)

/-- Value (src/effect.rs): the closed tagged union manipulated by the
interpreter.  `Int(i32)` is modelled as `Int`, `Float(f32)` as `Rat`,
`Object(HashMap<String, Value>)` as an association list. -/
inductive Value where
  | int (v : Int)
  | float (v : Rat)
  | bool (v : Bool)
  | string (v : String)
  | array (items : List Value)
  | object (fields : List (String × Value))
  | null
deriving Repr

mutual
/-- Structural equality on `Value`, modelling the derived `PartialEq`
(`HashMap` equality is key-set based; the association lists produced by this
development carry unique keys, where list equality agrees with it). -/
def Value.beq : Value → Value → Bool
  | .int a, .int b => a == b
  | .float a, .float b => a == b
  | .bool a, .bool b => a == b
  | .string a, .string b => a == b
  | .array a, .array b => Value.beqList a b
  | .object a, .object b => Value.beqFields a b
  | .null, .null => true
  | _, _ => false
termination_by structural a => a

/-- Elementwise equality of `Vec<Value>`. -/
def Value.beqList : List Value → List Value → Bool
  | [], [] => true
  | a :: as_, b :: bs => Value.beq a b && Value.beqList as_ bs
  | _, _ => false
termination_by structural l => l

/-- Entrywise equality of object field lists. -/
def Value.beqFields : List (String × Value) → List (String × Value) → Bool
  | [], [] => true
  | a :: as_, b :: bs => (a.1 == b.1 && Value.beq a.2 b.2) && Value.beqFields as_ bs
  | _, _ => false
termination_by structural l => l
end

instance : BEq Value := ⟨Value.beq⟩

/-- Value::as_int (src/effect.rs:19-25): `Int` passes through, `Float` is
cast with `as i32` (truncate toward zero, saturating), everything else is
`None`. -/
def Value.as_int : Value → Option Int
  | .int v => some v
  | .float v => some (i32ofRatSat v)
  | _ => none

/-- Value::as_float (src/effect.rs:27-33): `Float` passes through, `Int` is
converted (`as f32`, exact here over `Rat`), everything else is `None`. -/
def Value.as_float : Value → Option Rat
  | .float v => some v
  | .int v => some (v : Rat)
  | _ => none

/-- Value::as_bool (src/effect.rs:35-40): only `Bool` yields a value. -/
def Value.as_bool : Value → Option Bool
  | .bool v => some v
  | _ => none

/-- Value::as_string (src/effect.rs:42-47): only `String` yields a value. -/
def Value.as_string : Value → Option String
  | .string v => some v
  | _ => none

/-- Predicate (src/effect.rs:53-113): boolean expression tree over field
paths and values. -/
inductive Predicate where
  | equals (field : String) (value : Value)
  | notEquals (field : String) (value : Value)
  | greaterThan (field : String) (value : Value)
  | lessThan (field : String) (value : Value)
  | greaterOrEqual (field : String) (value : Value)
  | lessOrEqual (field : String) (value : Value)
  | hasTag (tag : String)
  | isType (card_type : String)
  | contains (field : String) (value : Value)
  | and (predicates : List Predicate)
  | or (predicates : List Predicate)
  | not (predicate : Predicate)
  | expression (expr : String)

/-- EffectOperation (src/effect.rs:118-213): the instruction tree.
`EmitEvent`'s `Option<HashMap<String, Value>>` payload is an association
list (`HashMap` iteration order is arbitrary; the merge writes distinct
keys, so any order is a faithful representative). -/
inductive EffectOperation where
  | add (target : String) (amount : Int)
  | subtract (target : String) (amount : Int)
  | multiply (target : String) (factor : Rat)
  | set (target : String) (value : Value)
  | filter (target : String) (predicate : Predicate)
  | remove (target : String) (count : Nat) (filter : Option Predicate)
      (random : Option Bool)
  | append (target : String) (item : Value)
  | insert (target : String) (index : Nat) (item : Value)
  | setFlag (flag : String) (value : Bool)
  | toggleFlag (flag : String)
  | ifCondition (condition : Predicate) (then_ : List EffectOperation)
      (else_ : Option (List EffectOperation))
  | forEach (collection : String) (operations : List EffectOperation)
  | whileLoop (condition : Predicate) (operations : List EffectOperation)
      (max_iterations : Option Nat)
  | onEvent (event : String) (operations : List EffectOperation)
  | emitEvent (event : String) (data : Option (List (String × Value)))
  | scheduleOperation (delay_seconds : Rat) (operations : List EffectOperation)
  | setVariable (name : String) (value : Value)
  | getVariable (name : String)

/-- Collection (src/collections.rs:9-12): a named ordered list of values. -/
structure Collection where
  items : List Value
deriving Repr

/-- Collection::new (src/collections.rs:15-17). -/
def Collection.new : Collection := ⟨[]⟩

/-- Collection::from_vec (src/collections.rs:19-21). -/
def Collection.from_vec (items : List Value) : Collection := ⟨items⟩

/-- Collection::filter (src/collections.rs:24-29): `Vec::retain`, which keeps
exactly the items satisfying the predicate, in order. -/
def Collection.filter (c : Collection) (predicate : Value → Bool) : Collection :=
  ⟨c.items.filter predicate⟩

/-- The non-random branch of Collection::remove (src/collections.rs:50-54):
pop `count` items from the end, pushing each popped item onto the removed
list (so the removed list is in pop order, last element first). -/
def popBackMany : List Value → Nat → List Value × List Value
  | l, 0 => ([], l)
  | l, count + 1 =>
    match l.getLast? with
    | none => ([], l)
    | some x =>
      let r := popBackMany l.dropLast count
      (x :: r.1, r.2)

/-- The random branch of Collection::remove (src/collections.rs:40-48).
`thread_rng` is modelled by an oracle `pick : Nat → Nat` consumed one draw
per removal starting at `step`; `(0..len).collect().choose(rng)` returns an
arbitrary valid index of the current (non-empty) list, modelled as
`pick step % length`.  The claims do not depend on the distribution. -/
def removeRandomMany (pick : Nat → Nat) :
    List Value → Nat → Nat → List Value × List Value
  | l, 0, _ => ([], l)
  | l, count + 1, step =>
    if l.isEmpty then ([], l)
    else
      let idx := pick step % l.length
      let x := l.getD idx .null
      let r := removeRandomMany pick (l.eraseIdx idx) count (step + 1)
      (x :: r.1, r.2)

/-- Collection::remove (src/collections.rs:32-58): remove
`min count len` items, either at oracle-chosen positions (`random`) or from
the end, returning the removed items and the remaining collection. -/
def Collection.remove (c : Collection) (count : Nat) (random : Bool)
    (pick : Nat → Nat) (step : Nat) : List Value × Collection :=
  let count := min count c.items.length
  if random then
    let r := removeRandomMany pick c.items count step
    (r.1, ⟨r.2⟩)
  else
    let r := popBackMany c.items count
    (r.1, ⟨r.2⟩)

/-- Collection::append (src/collections.rs:61-63). -/
def Collection.append (c : Collection) (item : Value) : Collection :=
  ⟨c.items ++ [item]⟩

/-- Collection::insert (src/collections.rs:66-72): insert at `index` when
`index <= len`, otherwise push to the end. -/
def Collection.insertAt (c : Collection) (index : Nat) (item : Value) : Collection :=
  if index ≤ c.items.length then ⟨c.items.insertIdx index item⟩
  else ⟨c.items ++ [item]⟩

/-- Collection::len (src/collections.rs:75-77). -/
def Collection.len (c : Collection) : Nat := c.items.length

/-- CollectionManager (src/collections.rs:112-115): a map from path to
collection, modelled as an association list. -/
structure CollectionManager where
  collections : List (String × Collection)

/-- CollectionManager::new (src/collections.rs:118-122). -/
def CollectionManager.new : CollectionManager := ⟨[]⟩

/-- CollectionManager::get (src/collections.rs:125-127). -/
def CollectionManager.get (m : CollectionManager) (path : String) : Option Collection :=
  alistGet m.collections path

/-- CollectionManager::set (src/collections.rs:142-144). -/
def CollectionManager.set (m : CollectionManager) (path : String) (c : Collection) :
    CollectionManager :=
  ⟨alistInsert m.collections path c⟩

/-- CollectionManager::contains (src/collections.rs:152-154). -/
def CollectionManager.containsPath (m : CollectionManager) (path : String) : Bool :=
  (m.get path).isSome

/-- get_field_value's traversal loop (src/collections.rs:290-299): walk the
dotted path through nested objects; a missing key or a non-object link
yields `none`; the value reached after the last part is returned. -/
def walkFields : Value → List String → Option Value
  | current, [] => some current
  | current, part :: rest =>
    match current with
    | .object obj =>
      match alistGet obj part with
      | some next => walkFields next rest
      | none => none
    | _ => none

/-- get_field_value (src/collections.rs:286-305): only objects can be
indexed; the field string is split on dots. -/
def get_field_value (item : Value) (field : String) : Option Value :=
  match item with
  | .object _ => walkFields item (splitPath field)
  | _ => none

namespace Collections

/-- compare_values (src/collections.rs:308-325), the item-level numeric
comparison: a non-numeric operand on either side makes the comparison
return `false` (no error). -/
def compare_values (a b : Value) (op : Rat → Rat → Bool) : Bool :=
  match (match a with
         | .int v => some (v : Rat)
         | .float v => some v
         | _ => none) with
  | none => false
  | some a_num =>
    match (match b with
           | .int v => some (v : Rat)
           | .float v => some v
           | _ => none) with
    | none => false
    | some b_num => op a_num b_num

end Collections

mutual
/-- evaluate_item_predicate (src/collections.rs:173-283): the item-level
predicate evaluator used by Filter/Remove.  It returns a plain `Bool` and
cannot fail; `Expression` evaluates to `false` (warning only). -/
def evaluate_item_predicate : Predicate → Value → Bool
  | .equals field value, item =>
    match get_field_value item field with
    | some item_value => item_value == value
    | none => false
  | .notEquals field value, item =>
    match get_field_value item field with
    | some item_value => item_value != value
    | none => true
  | .greaterThan field value, item =>
    match get_field_value item field with
    | some item_value => Collections.compare_values item_value value (fun a b => a > b)
    | none => false
  | .lessThan field value, item =>
    match get_field_value item field with
    | some item_value => Collections.compare_values item_value value (fun a b => a < b)
    | none => false
  | .greaterOrEqual field value, item =>
    match get_field_value item field with
    | some item_value => Collections.compare_values item_value value (fun a b => a ≥ b)
    | none => false
  | .lessOrEqual field value, item =>
    match get_field_value item field with
    | some item_value => Collections.compare_values item_value value (fun a b => a ≤ b)
    | none => false
  | .hasTag tag, item =>
    match get_field_value item "tags" with
    | some (.array tags) =>
      tags.any (fun t =>
        match t with
        | .string s => s == tag
        | _ => false)
    | _ => false
  | .isType card_type, item =>
    match get_field_value item "type" with
    | some (.string item_type) => item_type == card_type
    | _ => false
  | .contains field value, item =>
    match get_field_value item field with
    | some (.array arr) => arr.any (fun x => x == value)
    | some (.string s) =>
      match value with
      | .string search => containsSub s.data search.data
      | _ => false
    | _ => false
  | .and predicates, item => itemPredAll predicates item
  | .or predicates, item => itemPredAny predicates item
  | .not predicate, item => !evaluate_item_predicate predicate item
  | .expression _, _ => false
termination_by structural p => p

/-- The `Iterator::all` fold of the item-level `And` case
(src/collections.rs:266-268). -/
def itemPredAll : List Predicate → Value → Bool
  | [], _ => true
  | p :: rest, item => evaluate_item_predicate p item && itemPredAll rest item
termination_by structural ps => ps

/-- The `Iterator::any` fold of the item-level `Or` case
(src/collections.rs:270-272). -/
def itemPredAny : List Predicate → Value → Bool
  | [], _ => false
  | p :: rest, item => evaluate_item_predicate p item || itemPredAny rest item
termination_by structural ps => ps
end

/-- GameTimer (src/resources.rs:16-19) together with the bevy `Timer` fields
this code reads or writes: total duration and elapsed time in nanoseconds
and the timer's internal pause flag (`Timer::pause`/`unpause`).  Tick
behaviour is owned by the excluded host loop. -/
structure GameTimer where
  durationNanos : Nat
  elapsedNanos : Nat
  timerPaused : Bool
  paused : Bool

/-- Score (src/resources.rs:32-37). -/
structure Score where
  current : Int
  passing_grade : Int
  correct_answers : Nat
  total_answered : Nat

/-- CardManager (src/resources.rs:52-55); `available_cards` is never read by
the interpreter core and is omitted. -/
structure CardManager where
  deployed_card_ids : List String

/-- The bevy `World` resource registry, restricted to the resource types the
interpreter core touches; `get_resource::<T>()` is a field read and
`insert_resource` a field write. -/
structure World where
  gameTimer : Option GameTimer
  score : Option Score
  cardManager : Option CardManager
  collectionManager : Option CollectionManager

/-- GameState (src/game_state.rs:9-12): owns only the `var.<name>` variable
map; everything else resolves live against the `World`. -/
structure GameState where
  vars : List (String × Value)

/-- GameState::new (src/game_state.rs:23-25). -/
def GameState.new : GameState := ⟨[]⟩

/-- Nanoseconds per second, for `Duration::as_secs` and `from_secs`. -/
def nanosPerSec : Nat := 1000000000

/-- GameState::get (src/game_state.rs:28-96): resolve a dotted path against
the world's resources or the internal `var` map.  `timer.remaining` is
`(duration - elapsed).as_secs() as i32`, `timer.percent_remaining` is
computed from `as_secs_f32` readings (exact here over `Rat`),
`question.points` is unimplemented (`None`), `cards.slots.max` is the
constant 10, and unknown paths return `None` with a warning. -/
def GameState.get (s : GameState) (path : String) (w : World) : Option Value :=
  match splitPath path with
  | ["timer", "remaining"] =>
    w.gameTimer.map (fun gt =>
      .int (i32cast (((gt.durationNanos - gt.elapsedNanos) / nanosPerSec : Nat) : Int)))
  | ["timer", "elapsed"] =>
    w.gameTimer.map (fun gt =>
      .int (i32cast ((gt.elapsedNanos / nanosPerSec : Nat) : Int)))
  | ["timer", "percent_remaining"] =>
    w.gameTimer.map (fun gt =>
      let total : Rat := (gt.durationNanos : Rat) / (nanosPerSec : Rat)
      let elapsed : Rat := (gt.elapsedNanos : Rat) / (nanosPerSec : Rat)
      if total > 0 then .float ((total - elapsed) / total * 100) else .float 0)
  | ["timer", "paused"] =>
    w.gameTimer.map (fun gt => .bool gt.paused)
  | ["score", "current"] =>
    w.score.map (fun sc => .int sc.current)
  | ["score", "passing_grade"] =>
    w.score.map (fun sc => .int sc.passing_grade)
  | ["question", "points"] => none
  | ["cards", "slots", "max"] => some (.int 10)
  | ["cards", "slots", "occupied"] =>
    w.cardManager.map (fun cm => .int (i32cast (cm.deployed_card_ids.length : Int)))
  | ["var", var_name] => alistGet s.vars var_name
  | _ => none

/-- GameState::set (src/game_state.rs:99-161): write a value at a dotted
path, returning the updated state, updated world and the success flag.
Setting `timer.remaining` rebuilds the duration as
`from_secs(seconds.max(0)) + elapsed`; setting `timer.paused` also pauses or
unpauses the inner timer; unknown or unsupported paths return `false`
without mutating anything. -/
def GameState.set (s : GameState) (path : String) (value : Value) (w : World) :
    GameState × World × Bool :=
  match splitPath path with
  | ["timer", "remaining"] =>
    match value.as_int with
    | some seconds =>
      match w.gameTimer with
      | some gt =>
        let newDuration := (max seconds 0).toNat * nanosPerSec + gt.elapsedNanos
        (s, { w with gameTimer := some { gt with durationNanos := newDuration } }, true)
      | none => (s, w, false)
    | none => (s, w, false)
  | ["timer", "paused"] =>
    match value.as_bool with
    | some p =>
      match w.gameTimer with
      | some gt =>
        (s, { w with gameTimer := some { gt with paused := p, timerPaused := p } }, true)
      | none => (s, w, false)
    | none => (s, w, false)
  | ["score", "current"] =>
    match value.as_int with
    | some amount =>
      match w.score with
      | some sc => (s, { w with score := some { sc with current := amount } }, true)
      | none => (s, w, false)
    | none => (s, w, false)
  | ["score", "passing_grade"] =>
    match value.as_int with
    | some amount =>
      match w.score with
      | some sc => (s, { w with score := some { sc with passing_grade := amount } }, true)
      | none => (s, w, false)
    | none => (s, w, false)
  | ["var", var_name] =>
    (⟨alistInsert s.vars var_name value⟩, w, true)
  | _ => (s, w, false)

/-- GameState::add (src/game_state.rs:164-172): get, narrow with `as_int`,
add (i32 arithmetic, wrapping modelled explicitly) and set. -/
def GameState.add (s : GameState) (path : String) (amount : Int) (w : World) :
    GameState × World × Bool :=
  match s.get path w with
  | some current =>
    match current.as_int with
    | some current_val => s.set path (.int (i32cast (current_val + amount))) w
    | none => (s, w, false)
  | none => (s, w, false)

/-- GameState::subtract (src/game_state.rs:175-177): `add(-amount)`. -/
def GameState.subPath (s : GameState) (path : String) (amount : Int) (w : World) :
    GameState × World × Bool :=
  s.add path (-amount) w

/-- GameState::multiply (src/game_state.rs:180-190): `Int` multiplies via
`f32` and casts back (`as i32`, truncating and saturating), `Float`
multiplies in place, other variants fail. -/
def GameState.multiply (s : GameState) (path : String) (factor : Rat) (w : World) :
    GameState × World × Bool :=
  match s.get path w with
  | some current =>
    match current with
    | .int v => s.set path (.int (i32ofRatSat ((v : Rat) * factor))) w
    | .float v => s.set path (.float (v * factor)) w
    | _ => (s, w, false)
  | none => (s, w, false)

/-- GameState::set_flag (src/game_state.rs:193-195). -/
def GameState.set_flag (s : GameState) (flag : String) (value : Bool) (w : World) :
    GameState × World × Bool :=
  s.set flag (.bool value) w

/-- GameState::toggle_flag (src/game_state.rs:198-205): read, narrow with
`as_bool`, write the negation; fails if the path does not resolve to a
boolean. -/
def GameState.toggle_flag (s : GameState) (flag : String) (w : World) :
    GameState × World × Bool :=
  match s.get flag w with
  | some current =>
    match current.as_bool with
    | some current_bool => s.set_flag flag (!current_bool) w
    | none => (s, w, false)
  | none => (s, w, false)

/-- EffectContext (src/effect.rs:276-281): per-execution variable scope. -/
structure EffectContext where
  card_id : String
  effect_id : String
  vars : List (String × Value)
  event_data : Option (List (String × Value))

/-- EffectContext::new (src/effect.rs:284-291). -/
def EffectContext.new (card_id effect_id : String) : EffectContext :=
  ⟨card_id, effect_id, [], none⟩

/-- EffectContext::set_variable (src/effect.rs:298-300). -/
def EffectContext.set_variable (c : EffectContext) (name : String) (value : Value) :
    EffectContext :=
  { c with vars := alistInsert c.vars name value }

/-- EffectContext::get_variable (src/effect.rs:302-304). -/
def EffectContext.get_variable (c : EffectContext) (name : String) : Option Value :=
  alistGet c.vars name

/-- EffectError (src/effect_executor/mod.rs:24-30). -/
inductive EffectError where
  | invalidPath (p : String)
  | invalidValue (v : String)
  | predicateError (e : String)
  | operationError (e : String)
  | maxIterationsReached
deriving DecidableEq, Repr

/-- EffectExecutor (src/effect_executor/mod.rs:47-49): owns the
event-listener registry, a map from event name to the list of registered
operation bodies. -/
structure EffectExecutor where
  event_listeners : List (String × List (List EffectOperation))

/-- EffectExecutor::new (src/effect_executor/mod.rs:58-62). -/
def EffectExecutor.new : EffectExecutor := ⟨[]⟩

/-- EffectExecutor::register_event_listener
(src/effect_executor/mod.rs:120-125): `entry(event).or_default().push(ops)`,
so registrations for the same event accumulate in order. -/
def EffectExecutor.register_event_listener (ex : EffectExecutor) (event : String)
    (operations : List EffectOperation) : EffectExecutor :=
  match alistGet ex.event_listeners event with
  | some bodies => ⟨alistInsert ex.event_listeners event (bodies ++ [operations])⟩
  | none => ⟨alistInsert ex.event_listeners event [operations]⟩

/-- EffectExecutor::get_event_listeners (src/effect_executor/mod.rs:128-130). -/
def EffectExecutor.get_event_listeners (ex : EffectExecutor) (event : String) :
    Option (List (List EffectOperation)) :=
  alistGet ex.event_listeners event

namespace EffectExecutor

/-- EffectExecutor::resolve_value (src/effect_executor/mod.rs:216-233): a
`$`-prefixed field is first looked up in the context variables; on a miss,
and for every other field, it is treated as a GameState path, whose failure
is an `InvalidPath` error. -/
def resolve_value (field : String) (context : EffectContext) (state : GameState)
    (world : World) : Except EffectError Value :=
  match (match stripDollar field with
         | some var_name => context.get_variable var_name
         | none => none) with
  | some v => .ok v
  | none =>
    match state.get field world with
    | some v => .ok v
    | none => .error (.invalidPath field)

/-- EffectExecutor::compare_values (src/effect_executor/mod.rs:236-253), the
state-level numeric comparison: a non-numeric operand on either side is an
`InvalidValue("Not a number")` error. -/
def compare_values (a b : Value) (op : Rat → Rat → Bool) :
    Except EffectError Bool :=
  match (match a with
         | .int v => some (v : Rat)
         | .float v => some v
         | _ => none) with
  | none => .error (.invalidValue "Not a number")
  | some a_num =>
    match (match b with
           | .int v => some (v : Rat)
           | .float v => some v
           | _ => none) with
    | none => .error (.invalidValue "Not a number")
    | some b_num => .ok (op a_num b_num)

mutual
/-- EffectExecutor::evaluate_predicate (src/effect_executor/mod.rs:133-213):
the state-level predicate evaluator.  Comparisons resolve the field then
compare; `And`/`Or` short-circuit; `HasTag`, `IsType`, `Contains` and
`Expression` are unimplemented and evaluate to `Ok(false)` with a warning. -/
def evaluate_predicate (p : Predicate) (context : EffectContext)
    (state : GameState) (world : World) : Except EffectError Bool :=
  match p with
  | .equals field value =>
    match resolve_value field context state world with
    | .ok current => .ok (current == value)
    | .error e => .error e
  | .notEquals field value =>
    match resolve_value field context state world with
    | .ok current => .ok (current != value)
    | .error e => .error e
  | .greaterThan field value =>
    match resolve_value field context state world with
    | .ok current => compare_values current value (fun a b => a > b)
    | .error e => .error e
  | .lessThan field value =>
    match resolve_value field context state world with
    | .ok current => compare_values current value (fun a b => a < b)
    | .error e => .error e
  | .greaterOrEqual field value =>
    match resolve_value field context state world with
    | .ok current => compare_values current value (fun a b => a ≥ b)
    | .error e => .error e
  | .lessOrEqual field value =>
    match resolve_value field context state world with
    | .ok current => compare_values current value (fun a b => a ≤ b)
    | .error e => .error e
  | .and predicates => evalPredAll predicates context state world
  | .or predicates => evalPredAny predicates context state world
  | .not predicate =>
    match evaluate_predicate predicate context state world with
    | .ok b => .ok (!b)
    | .error e => .error e
  | .hasTag _ => .ok false
  | .isType _ => .ok false
  | .contains _ _ => .ok false
  | .expression _ => .ok false
termination_by structural p

/-- The state-level `And` loop (src/effect_executor/mod.rs:171-178): return
`Ok(false)` on the first false child, propagating errors. -/
def evalPredAll (ps : List Predicate) (context : EffectContext)
    (state : GameState) (world : World) : Except EffectError Bool :=
  match ps with
  | [] => .ok true
  | p :: rest =>
    match evaluate_predicate p context state world with
    | .ok true => evalPredAll rest context state world
    | .ok false => .ok false
    | .error e => .error e
termination_by structural ps

/-- The state-level `Or` loop (src/effect_executor/mod.rs:180-187): return
`Ok(true)` on the first true child, propagating errors. -/
def evalPredAny (ps : List Predicate) (context : EffectContext)
    (state : GameState) (world : World) : Except EffectError Bool :=
  match ps with
  | [] => .ok false
  | p :: rest =>
    match evaluate_predicate p context state world with
    | .ok true => .ok true
    | .ok false => evalPredAny rest context state world
    | .error e => .error e
termination_by structural ps
end

end EffectExecutor

/-- The outcome of executing an operation.  `ok` and `err` mirror
`EffectResult = Result<(), EffectError>`; `outOfGas` is a model artifact
marking that the bound on reentrant `EmitEvent` dispatch was exhausted (the
Rust source has no such bound and can recurse without limit, which the spec
records as an open risk). -/
inductive Outcome where
  | ok
  | err (e : EffectError)
  | outOfGas
deriving DecidableEq, Repr

/-- The mutable state threaded by reference through the Rust call chain:
the executor (listener registry), the per-effect context, the `GameState`
and the bevy `World`.  `rng` and `rngUsed` model the implicit `thread_rng`
consumed by random `Remove` (one draw per removed item). -/
structure ExecState where
  executor : EffectExecutor
  context : EffectContext
  state : GameState
  world : World
  rng : Nat → Nat
  rngUsed : Nat

mutual
/-- Size of one operation, used as the termination measure of the
interpreter (listener dispatch is measured by gas instead). -/
def opSize : EffectOperation → Nat
  | .ifCondition _ then_ else_ => opsSize then_ + opsSizeOpt else_ + 1
  | .whileLoop _ operations _ => opsSize operations + 2
  | .forEach _ operations => opsSize operations + 2
  | .emitEvent _ _ => 2
  | _ => 1
termination_by structural op => op

/-- Size of an operation list. -/
def opsSize : List EffectOperation → Nat
  | [] => 0
  | op :: rest => opSize op + opsSize rest + 1
termination_by structural l => l

/-- Size of an optional operation list. -/
def opsSizeOpt : Option (List EffectOperation) → Nat
  | some l => opsSize l
  | none => 0
termination_by structural o => o
end

/-- Size of a list of listener bodies. -/
def bodiesSize : List (List EffectOperation) → Nat
  | [] => 0
  | body :: rest => opsSize body + bodiesSize rest + 1

mutual
/-- EffectExecutor::execute_operation (src/effect_executor/mod.rs:79-117)
together with the per-kind handlers it dispatches to
(src/effect_executor/value_ops.rs, flag_ops.rs, variable_ops.rs,
event_ops.rs, collection_ops.rs, control_flow.rs).  The Rust dispatch tries
the handlers in that order; each handler accepts a disjoint set of
constructors, so the chain is merged into one exhaustive match.  `gas`
bounds only the reentrant `EmitEvent` listener dispatch. -/
def execute_operation (gas : Nat) (op : EffectOperation) (ex : ExecState) :
    ExecState × Outcome :=
  match op with
  | .add target amount =>
    let r := ex.state.add target amount ex.world
    ({ ex with state := r.1, world := r.2.1 },
     if r.2.2 then .ok else .err (.invalidPath target))
  | .subtract target amount =>
    let r := ex.state.subPath target amount ex.world
    ({ ex with state := r.1, world := r.2.1 },
     if r.2.2 then .ok else .err (.invalidPath target))
  | .multiply target factor =>
    let r := ex.state.multiply target factor ex.world
    ({ ex with state := r.1, world := r.2.1 },
     if r.2.2 then .ok else .err (.invalidPath target))
  | .set target value =>
    let r := ex.state.set target value ex.world
    ({ ex with state := r.1, world := r.2.1 },
     if r.2.2 then .ok else .err (.invalidPath target))
  | .setFlag flag value =>
    let r := ex.state.set_flag flag value ex.world
    ({ ex with state := r.1, world := r.2.1 },
     if r.2.2 then .ok else .err (.invalidPath flag))
  | .toggleFlag flag =>
    let r := ex.state.toggle_flag flag ex.world
    ({ ex with state := r.1, world := r.2.1 },
     if r.2.2 then .ok else .err (.invalidPath flag))
  | .setVariable name value =>
    ({ ex with context := ex.context.set_variable name value }, .ok)
  | .getVariable _ => (ex, .ok)
  | .onEvent event operations =>
    ({ ex with executor := ex.executor.register_event_listener event operations }, .ok)
  | .emitEvent event data =>
    execute_emit_event gas event data (ex.executor.get_event_listeners event) ex
  | .scheduleOperation _ _ => (ex, .ok)
  | .filter target predicate =>
    match ex.world.collectionManager with
    | none => (ex, .err (.operationError "CollectionManager not available"))
    | some mgr =>
      match mgr.get target with
      | some collection =>
        let filtered := collection.filter (fun item => evaluate_item_predicate predicate item)
        ({ ex with world :=
            { ex.world with collectionManager := some (mgr.set target filtered) } }, .ok)
      | none => (ex, .ok)
  | .remove target count filt random =>
    match ex.world.collectionManager with
    | none => (ex, .err (.operationError "CollectionManager not available"))
    | some mgr =>
      match mgr.get target with
      | some collection =>
        let c1 := match filt with
          | some pred => collection.filter (fun item => evaluate_item_predicate pred item)
          | none => collection
        let rr := c1.remove count (random.getD false) ex.rng ex.rngUsed
        let removed := rr.1
        let removedValue :=
          if removed.length == 1 then removed.headD .null else .array removed
        ({ ex with
            context := ex.context.set_variable "removed" removedValue,
            world := { ex.world with collectionManager := some (mgr.set target rr.2) },
            rngUsed := ex.rngUsed + min count c1.items.length }, .ok)
      | none => (ex, .ok)
  | .append target item =>
    match ex.world.collectionManager with
    | none => (ex, .err (.operationError "CollectionManager not available"))
    | some mgr =>
      let collection := (mgr.get target).getD Collection.new
      ({ ex with world :=
          { ex.world with collectionManager := some (mgr.set target (collection.append item)) } },
       .ok)
  | .insert target index item =>
    match ex.world.collectionManager with
    | none => (ex, .err (.operationError "CollectionManager not available"))
    | some mgr =>
      let collection := (mgr.get target).getD Collection.new
      ({ ex with world :=
          { ex.world with collectionManager := some (mgr.set target (collection.insertAt index item)) } },
       .ok)
  | .ifCondition condition then_ else_ =>
    match EffectExecutor.evaluate_predicate condition ex.context ex.state ex.world with
    | .error e => (ex, .err e)
    | .ok true => execute_operations gas then_ ex
    | .ok false =>
      match else_ with
      | some else_ops => execute_operations gas else_ops ex
      | none => (ex, .ok)
  | .whileLoop condition operations max_iterations =>
    execute_while gas condition operations (max_iterations.getD 100) ex
  | .forEach collection operations =>
    match ex.world.collectionManager with
    | none => (ex, .err (.operationError "CollectionManager not available"))
    | some mgr =>
      let items := match mgr.get collection with
        | some c => c.items
        | none => []
      execute_for_each gas operations items 0 ex
termination_by (gas, opSize op, 0)
decreasing_by all_goals (simp_wf; first | exact Prod.Lex.left _ _ (by omega) | exact Prod.Lex.right _ (Prod.Lex.right _ (by omega)) | exact Prod.Lex.right _ (Prod.Lex.left _ _ (by simp [opSize, opsSize, opsSizeOpt, bodiesSize] <;> omega)) | exact Prod.Lex.left _ _ (by simp [opSize, opsSize, opsSizeOpt, bodiesSize] <;> omega))

/-- The operation-list loop shared by execute_effect, the control-flow
bodies and the listener bodies: run in order, stopping at the first non-ok
outcome, keeping all mutations already applied. -/
def execute_operations (gas : Nat) (ops : List EffectOperation) (ex : ExecState) :
    ExecState × Outcome :=
  match ops with
  | [] => (ex, .ok)
  | op :: rest =>
    match execute_operation gas op ex with
    | (ex1, .ok) => execute_operations gas rest ex1
    | r => r
termination_by (gas, opsSize ops, 0)
decreasing_by all_goals (simp_wf; first | exact Prod.Lex.left _ _ (by omega) | exact Prod.Lex.right _ (Prod.Lex.right _ (by omega)) | exact Prod.Lex.right _ (Prod.Lex.left _ _ (by simp [opSize, opsSize, opsSizeOpt, bodiesSize] <;> omega)) | exact Prod.Lex.left _ _ (by simp [opSize, opsSize, opsSizeOpt, bodiesSize] <;> omega))

/-- execute_while (src/effect_executor/control_flow.rs:55-79): re-evaluate
the predicate before every iteration; once the predicate holds with the
iteration budget exhausted, fail with `MaxIterationsReached`.  `fuel` is
`max - iterations`, the number of body executions still allowed. -/
def execute_while (gas : Nat) (condition : Predicate)
    (operations : List EffectOperation) (fuel : Nat) (ex : ExecState) :
    ExecState × Outcome :=
  match EffectExecutor.evaluate_predicate condition ex.context ex.state ex.world with
  | .error e => (ex, .err e)
  | .ok false => (ex, .ok)
  | .ok true =>
    match fuel with
    | 0 => (ex, .err .maxIterationsReached)
    | fuel1 + 1 =>
      match execute_operations gas operations ex with
      | (ex1, .ok) => execute_while gas condition operations fuel1 ex1
      | r => r
termination_by (gas, opsSize operations + 1, fuel)
decreasing_by all_goals (simp_wf; first | exact Prod.Lex.left _ _ (by omega) | exact Prod.Lex.right _ (Prod.Lex.right _ (by omega)) | exact Prod.Lex.right _ (Prod.Lex.left _ _ (by simp [opSize, opsSize, opsSizeOpt, bodiesSize] <;> omega)) | exact Prod.Lex.left _ _ (by simp [opSize, opsSize, opsSizeOpt, bodiesSize] <;> omega))

/-- The iteration loop of execute_for_each
(src/effect_executor/control_flow.rs:102-111): for each snapshot item, set
the `item` and `index` context variables (`index as i32`) and run the body. -/
def execute_for_each (gas : Nat) (operations : List EffectOperation)
    (items : List Value) (index : Nat) (ex : ExecState) : ExecState × Outcome :=
  match items with
  | [] => (ex, .ok)
  | item :: rest =>
    let context1 :=
      (ex.context.set_variable "item" item).set_variable "index"
        (.int (i32cast (index : Int)))
    let ex1 := { ex with context := context1 }
    match execute_operations gas operations ex1 with
    | (ex2, .ok) => execute_for_each gas operations rest (index + 1) ex2
    | r => r
termination_by (gas, opsSize operations + 1, items.length)
decreasing_by all_goals (simp_wf; first | exact Prod.Lex.left _ _ (by omega) | exact Prod.Lex.right _ (Prod.Lex.right _ (by omega)) | exact Prod.Lex.right _ (Prod.Lex.left _ _ (by simp [opSize, opsSize, opsSizeOpt, bodiesSize] <;> omega)) | exact Prod.Lex.left _ _ (by simp [opSize, opsSize, opsSizeOpt, bodiesSize] <;> omega))

/-- execute_emit_event (src/effect_executor/event_ops.rs:34-59): when no
listener is registered the whole operation, including the `event.`-prefixed
data merge, is skipped; otherwise the data map is merged into the context
variables and every registered body runs in order against the same state.
The `get_event_listeners` lookup is passed in from the dispatch site so the
function pattern-matches on an argument.  Gas is consumed once per dispatch
to bound the (unguarded) reentrancy. -/
def execute_emit_event (gas : Nat) (event : String)
    (data : Option (List (String × Value)))
    (listenersOpt : Option (List (List EffectOperation))) (ex : ExecState) :
    ExecState × Outcome :=
  match listenersOpt with
  | none => (ex, .ok)
  | some listeners =>
    let context1 := match data with
      | some event_data =>
        event_data.foldl
          (fun c kv => c.set_variable ("event." ++ kv.1) kv.2) ex.context
      | none => ex.context
    let ex1 := { ex with context := context1 }
    match gas with
    | 0 => (ex1, .outOfGas)
    | gas1 + 1 => execute_listeners gas1 listeners ex1
termination_by (gas, 1, 0)
decreasing_by all_goals (simp_wf; first | exact Prod.Lex.left _ _ (by omega) | exact Prod.Lex.right _ (Prod.Lex.right _ (by omega)) | exact Prod.Lex.right _ (Prod.Lex.left _ _ (by simp [opSize, opsSize, opsSizeOpt, bodiesSize] <;> omega)) | exact Prod.Lex.left _ _ (by simp [opSize, opsSize, opsSizeOpt, bodiesSize] <;> omega))

/-- The listener loop of execute_emit_event
(src/effect_executor/event_ops.rs:52-56). -/
def execute_listeners (gas : Nat) (bodies : List (List EffectOperation))
    (ex : ExecState) : ExecState × Outcome :=
  match bodies with
  | [] => (ex, .ok)
  | body :: rest =>
    match execute_operations gas body ex with
    | (ex1, .ok) => execute_listeners gas rest ex1
    | r => r
termination_by (gas, bodiesSize bodies, 0)
decreasing_by all_goals (simp_wf; first | exact Prod.Lex.left _ _ (by omega) | exact Prod.Lex.right _ (Prod.Lex.right _ (by omega)) | exact Prod.Lex.right _ (Prod.Lex.left _ _ (by simp [opSize, opsSize, opsSizeOpt, bodiesSize] <;> omega)) | exact Prod.Lex.left _ _ (by simp [opSize, opsSize, opsSizeOpt, bodiesSize] <;> omega))
end

/-- EffectExecutor::execute_effect (src/effect_executor/mod.rs:65-76): run
the effect's operation list in order, propagating the first failure. -/
def execute_effect (gas : Nat) (operations : List EffectOperation)
    (ex : ExecState) : ExecState × Outcome :=
  execute_operations gas operations ex

/-- True exactly on the `Int` and `Float` variants, the operands the numeric
comparisons accept. -/
def isNumericValue : Value → Bool
  | .int _ => true
  | .float _ => true
  | _ => false

/-- The state-level compare_values errors whenever either operand is
non-numeric. -/
theorem exec_compare_values_nonnum (a b : Value) (op : Rat → Rat → Bool)
    (h : isNumericValue a = false ∨ isNumericValue b = false) :
    EffectExecutor.compare_values a b op = .error (.invalidValue "Not a number") := by
  cases a <;> cases b <;> simp_all [isNumericValue, EffectExecutor.compare_values]

/-- The item-level compare_values returns false whenever either operand is
non-numeric. -/
theorem item_compare_values_nonnum (a b : Value) (op : Rat → Rat → Bool)
    (h : isNumericValue a = false ∨ isNumericValue b = false) :
    Collections.compare_values a b op = false := by
  cases a <;> cases b <;> simp_all [isNumericValue, Collections.compare_values]

/-- C1 (corrected), counterexample to the claim as stated: with the context
variable `x` bound to `Bool(true)`, the state-level evaluation of
`GreaterThan($x, 0)` does NOT evaluate to false — it fails with the
`InvalidValue("Not a number")` error; and the item-level evaluation of
`GreaterThan(v, 0)` against an item whose `v` field is `Bool(true)` does NOT
fail — it returns plain `false` (the item evaluator returns `Bool` and has
no error channel at all). -/
theorem c1_counterexample :
    EffectExecutor.evaluate_predicate (.greaterThan "$x" (.int 0))
        ⟨"c", "e", [("x", .bool true)], none⟩ GameState.new ⟨none, none, none, none⟩ ≠
      .ok false ∧
    EffectExecutor.evaluate_predicate (.greaterThan "$x" (.int 0))
        ⟨"c", "e", [("x", .bool true)], none⟩ GameState.new ⟨none, none, none, none⟩ =
      .error (.invalidValue "Not a number") ∧
    evaluate_item_predicate (.greaterThan "v" (.int 0)) (.object [("v", .bool true)]) =
      false := by
  have he : EffectExecutor.evaluate_predicate (.greaterThan "$x" (.int 0))
      ⟨"c", "e", [("x", .bool true)], none⟩ GameState.new ⟨none, none, none, none⟩ =
      .error (.invalidValue "Not a number") := rfl
  exact ⟨by simp [he], he, rfl⟩

/-- C1 (amended): for every numeric comparison predicate (GreaterThan,
LessThan, GreaterOrEqual, LessOrEqual) in which either operand is not an Int
and not a Float, the STATE-level evaluator fails with an "invalid value"
error (given the field itself resolves), while the ITEM-level evaluator
(used by Filter/Remove) evaluates the predicate to false and cannot fail. -/
theorem c1_nonnumeric_comparison_behavior :
    (∀ (field : String) (value current : Value) (context : EffectContext)
        (state : GameState) (world : World),
      EffectExecutor.resolve_value field context state world = .ok current →
      isNumericValue current = false ∨ isNumericValue value = false →
      EffectExecutor.evaluate_predicate (.greaterThan field value) context state world =
          .error (.invalidValue "Not a number") ∧
        EffectExecutor.evaluate_predicate (.lessThan field value) context state world =
          .error (.invalidValue "Not a number") ∧
        EffectExecutor.evaluate_predicate (.greaterOrEqual field value) context state world =
          .error (.invalidValue "Not a number") ∧
        EffectExecutor.evaluate_predicate (.lessOrEqual field value) context state world =
          .error (.invalidValue "Not a number")) ∧
    (∀ (field : String) (value current : Value) (item : Value),
      get_field_value item field = some current →
      isNumericValue current = false ∨ isNumericValue value = false →
      evaluate_item_predicate (.greaterThan field value) item = false ∧
        evaluate_item_predicate (.lessThan field value) item = false ∧
        evaluate_item_predicate (.greaterOrEqual field value) item = false ∧
        evaluate_item_predicate (.lessOrEqual field value) item = false) := by
  constructor
  · intro field value current context state world hres h
    refine ⟨?_, ?_, ?_, ?_⟩ <;>
      simp [EffectExecutor.evaluate_predicate, hres, exec_compare_values_nonnum _ _ _ h]
  · intro field value current item hres h
    refine ⟨?_, ?_, ?_, ?_⟩ <;>
      simp [evaluate_item_predicate, hres, item_compare_values_nonnum _ _ _ h]

/-- C1 witness: the amended theorem applied at concrete inputs (a context
variable bound to a boolean on the state side, a boolean field on the item
side). -/
theorem c1_nonnumeric_comparison_behavior_witness :
    EffectExecutor.evaluate_predicate (.greaterThan "$x" (.int 0))
        ⟨"c", "e", [("x", .bool true)], none⟩ GameState.new ⟨none, none, none, none⟩ =
      .error (.invalidValue "Not a number") ∧
    evaluate_item_predicate (.lessThan "v" (.int 0)) (.object [("v", .bool true)]) =
      false := by
  constructor
  · exact (c1_nonnumeric_comparison_behavior.1 "$x" (.int 0) (.bool true)
      ⟨"c", "e", [("x", .bool true)], none⟩ GameState.new ⟨none, none, none, none⟩
      rfl (Or.inl rfl)).1
  · exact (c1_nonnumeric_comparison_behavior.2 "v" (.int 0) (.bool true)
      (.object [("v", .bool true)]) rfl (Or.inl rfl)).2.1

/-- C6: for every HasTag, IsType, Contains or Expression predicate and every
context, state and world, the state-level evaluator returns `Ok(false)` and
never an error. -/
theorem c6_unimplemented_state_predicates_soft_false (tag card_type field expr : String)
    (value : Value) (context : EffectContext) (state : GameState) (world : World) :
    EffectExecutor.evaluate_predicate (.hasTag tag) context state world = .ok false ∧
    EffectExecutor.evaluate_predicate (.isType card_type) context state world = .ok false ∧
    EffectExecutor.evaluate_predicate (.contains field value) context state world = .ok false ∧
    EffectExecutor.evaluate_predicate (.expression expr) context state world = .ok false :=
  ⟨rfl, rfl, rfl, rfl⟩

/-- C6 witness: the theorem instantiated at concrete inputs. -/
theorem c6_unimplemented_state_predicates_soft_false_witness :
    EffectExecutor.evaluate_predicate (.hasTag "t") (EffectContext.new "c" "e")
        GameState.new ⟨none, none, none, none⟩ = .ok false ∧
    EffectExecutor.evaluate_predicate (.isType "q") (EffectContext.new "c" "e")
        GameState.new ⟨none, none, none, none⟩ = .ok false ∧
    EffectExecutor.evaluate_predicate (.contains "f" (.int 1)) (EffectContext.new "c" "e")
        GameState.new ⟨none, none, none, none⟩ = .ok false ∧
    EffectExecutor.evaluate_predicate (.expression "1+1") (EffectContext.new "c" "e")
        GameState.new ⟨none, none, none, none⟩ = .ok false :=
  c6_unimplemented_state_predicates_soft_false "t" "q" "f" "1+1" (.int 1)
    (EffectContext.new "c" "e") GameState.new ⟨none, none, none, none⟩

/-- C7: in both evaluators, `And([])` is true, `Or([])` is false and
`Not(Not(p))` has exactly the result of `p` (including errors at the state
level). -/
theorem c7_boolean_algebra (p : Predicate) (context : EffectContext)
    (state : GameState) (world : World) (item : Value) :
    EffectExecutor.evaluate_predicate (.and []) context state world = .ok true ∧
    EffectExecutor.evaluate_predicate (.or []) context state world = .ok false ∧
    EffectExecutor.evaluate_predicate (.not (.not p)) context state world =
      EffectExecutor.evaluate_predicate p context state world ∧
    evaluate_item_predicate (.and []) item = true ∧
    evaluate_item_predicate (.or []) item = false ∧
    evaluate_item_predicate (.not (.not p)) item = evaluate_item_predicate p item := by
  refine ⟨rfl, rfl, ?_, rfl, rfl, ?_⟩
  · cases h : EffectExecutor.evaluate_predicate p context state world <;>
      simp [EffectExecutor.evaluate_predicate, h]
  · simp [evaluate_item_predicate]

/-- C8 (corrected), counterexample to the claim as stated: `as_int` applied
to the non-Int value `Float(3.5)` returns `Some(3)` (the truncating cast),
not "no value", and `as_float` applied to the non-Float value `Int(5)`
returns `Some(5.0)`. -/
theorem c8_counterexample :
    Value.as_int (.float ((7 : Rat) / 2)) = some 3 ∧
    Value.as_int (.float ((7 : Rat) / 2)) ≠ none ∧
    Value.as_float (.int 5) = some 5 ∧
    Value.as_float (.int 5) ≠ none := by
  have h : Value.as_int (.float ((7 : Rat) / 2)) = some 3 := by
    norm_num [Value.as_int, i32ofRatSat, ratTrunc, i32min, i32max]
  refine ⟨h, by simp [h], rfl, by simp [Value.as_float]⟩

/-- C8 (amended): `as_bool` and `as_string` return "no value" exactly when
the variant does not match; `as_int` and `as_float` additionally coerce
between the two numeric variants (`as_int` truncates a Float, `as_float`
converts an Int) and return "no value" exactly on non-numeric variants.
None of the four accessors can fail. -/
theorem c8_narrowing_accessors (v : Value) :
    (v.as_bool = none ↔ ∀ b, v ≠ .bool b) ∧
    (v.as_string = none ↔ ∀ s, v ≠ .string s) ∧
    (v.as_int = none ↔ isNumericValue v = false) ∧
    (v.as_float = none ↔ isNumericValue v = false) ∧
    (∀ b, v = .bool b → v.as_bool = some b) ∧
    (∀ s, v = .string s → v.as_string = some s) ∧
    (∀ n, v = .int n → v.as_int = some n ∧ v.as_float = some (n : Rat)) ∧
    (∀ q, v = .float q → v.as_int = some (i32ofRatSat q) ∧ v.as_float = some q) := by
  cases v <;>
    simp [Value.as_bool, Value.as_string, Value.as_int, Value.as_float, isNumericValue]

/-- Characterization of the pop-from-end loop: the removed items are the
last `k` items in reverse order, the remainder is the unpopped prefix. -/
theorem popBackMany_eq (k : Nat) :
    ∀ l : List Value, popBackMany l k = (l.reverse.take k, (l.reverse.drop k).reverse) := by
  induction k with
  | zero => intro l; simp [popBackMany]
  | succ k ih =>
    intro l
    rcases l.eq_nil_or_concat with rfl | ⟨l2, x, rfl⟩
    · simp [popBackMany]
    · simp [popBackMany, List.getLast?_concat, List.dropLast_concat, ih l2]

/-- The random removal loop removes exactly one item per iteration while the
list is non-empty, so `k` iterations leave `length - k` items. -/
theorem removeRandomMany_length (pick : Nat → Nat) (k : Nat) :
    ∀ (l : List Value) (step : Nat),
      (removeRandomMany pick l k step).2.length = l.length - k := by
  induction k with
  | zero => intro l step; simp [removeRandomMany]
  | succ k ih =>
    intro l step
    by_cases hl : l.isEmpty
    · rcases List.isEmpty_iff.mp hl with rfl
      simp [removeRandomMany]
    · have hpos : 0 < l.length := by
        cases l with
        | nil => simp at hl
        | cons a t => simp
      have hidx : pick step % l.length < l.length := Nat.mod_lt _ hpos
      have herase : (l.eraseIdx (pick step % l.length)).length = l.length - 1 :=
        List.length_eraseIdx_of_lt hidx
      simp only [removeRandomMany, hl, Bool.false_eq_true, if_false, ih, herase]
      omega

/-- Both branches of Collection::remove leave exactly
`len - min count len = len - count (truncated)` items, and the non-random
branch leaves precisely the prefix, having removed the last items in
pop order. -/
theorem collection_remove_spec (c : Collection) (count : Nat) (random : Bool)
    (pick : Nat → Nat) (step : Nat) :
    (c.remove count random pick step).2.items.length = c.items.length - count ∧
    (random = false →
      c.remove count random pick step =
        ((c.items.drop (c.items.length - min count c.items.length)).reverse,
         ⟨c.items.take (c.items.length - min count c.items.length)⟩)) := by
  constructor
  · cases random with
    | false =>
      simp only [Collection.remove, if_false, Bool.false_eq_true, popBackMany_eq]
      simp [List.drop_reverse]
      omega
    | true =>
      simp only [Collection.remove, if_true]
      simp [removeRandomMany_length]
      omega
  · intro h
    subst h
    simp only [Collection.remove, Bool.false_eq_true, if_false, popBackMany_eq]
    rw [List.take_reverse, List.drop_reverse]
    simp

/-- C4: a Remove on an existing collection never errors; with post-filter
length n it leaves `n - k` items for `k ≤ n` and `0` items for `k > n`
(truncated subtraction covers both), and when `random` is absent or false
the remaining items are exactly the original prefix — the removed items were
taken from the end. -/
theorem c4_remove_never_errors (gas : Nat) (target : String) (count : Nat)
    (filt : Option Predicate) (random : Option Bool) (ex : ExecState)
    (mgr : CollectionManager) (C : Collection)
    (hmgr : ex.world.collectionManager = some mgr)
    (hc : mgr.get target = some C) :
    (execute_operation gas (.remove target count filt random) ex).2 = .ok ∧
    (∃ mgr2 C2,
      (execute_operation gas (.remove target count filt random) ex).1.world.collectionManager =
          some mgr2 ∧
        mgr2.get target = some C2 ∧
        C2.items.length =
          (match filt with
            | some p => C.filter (fun item => evaluate_item_predicate p item)
            | none => C).items.length - count ∧
        ((random = none ∨ random = some false) →
          C2.items =
            (match filt with
              | some p => C.filter (fun item => evaluate_item_predicate p item)
              | none => C).items.take
              ((match filt with
                | some p => C.filter (fun item => evaluate_item_predicate p item)
                | none => C).items.length - count))) := by
  have hget : ∀ c2 : Collection, (mgr.set target c2).get target = some c2 := by
    intro c2
    simp [CollectionManager.get, CollectionManager.set, alistGet, alistInsert]
  simp only [execute_operation, hmgr, hc]
  refine ⟨trivial, ?_⟩
  refine ⟨_, _, rfl, hget _, ?_, ?_⟩
  · exact (collection_remove_spec _ count (random.getD false) ex.rng ex.rngUsed).1
  · intro hr
    have hrb : random.getD false = false := by rcases hr with rfl | rfl <;> rfl
    rw [hrb, ((collection_remove_spec _ count false ex.rng ex.rngUsed).2 rfl)]
    simp [Nat.sub_sub_self, Nat.min_le_right]
    omega

/-- C4 witness: removing 2 of 3 items (no filter, non-random) leaves the
first item; the theorem applied at that input. -/
theorem c4_remove_never_errors_witness :
    (execute_operation 0 (.remove "c" 2 none none)
        ⟨EffectExecutor.new, EffectContext.new "k" "e", GameState.new,
          ⟨none, none, none, some ⟨[("c", ⟨[.int 1, .int 2, .int 3]⟩)]⟩⟩,
          fun _ => 0, 0⟩).2 = .ok ∧
    (∃ mgr2 C2,
      (execute_operation 0 (.remove "c" 2 none none)
          ⟨EffectExecutor.new, EffectContext.new "k" "e", GameState.new,
            ⟨none, none, none, some ⟨[("c", ⟨[.int 1, .int 2, .int 3]⟩)]⟩⟩,
            fun _ => 0, 0⟩).1.world.collectionManager = some mgr2 ∧
        mgr2.get "c" = some C2 ∧
        C2.items.length =
          (match (none : Option Predicate) with
            | some p => Collection.filter ⟨[.int 1, .int 2, .int 3]⟩
                (fun item => evaluate_item_predicate p item)
            | none => ⟨[.int 1, .int 2, .int 3]⟩).items.length - 2 ∧
        (((none : Option Bool) = none ∨ (none : Option Bool) = some false) →
          C2.items =
            (match (none : Option Predicate) with
              | some p => Collection.filter ⟨[.int 1, .int 2, .int 3]⟩
                  (fun item => evaluate_item_predicate p item)
              | none => ⟨[.int 1, .int 2, .int 3]⟩).items.take
              ((match (none : Option Predicate) with
                | some p => Collection.filter ⟨[.int 1, .int 2, .int 3]⟩
                    (fun item => evaluate_item_predicate p item)
                | none => ⟨[.int 1, .int 2, .int 3]⟩).items.length - 2))) :=
  c4_remove_never_errors 0 "c" 2 none none
    ⟨EffectExecutor.new, EffectContext.new "k" "e", GameState.new,
      ⟨none, none, none, some ⟨[("c", ⟨[.int 1, .int 2, .int 3]⟩)]⟩⟩,
      fun _ => 0, 0⟩
    ⟨[("c", ⟨[.int 1, .int 2, .int 3]⟩)]⟩ ⟨[.int 1, .int 2, .int 3]⟩ rfl rfl

/-- C5: Filter on an existing collection succeeds, retains exactly the items
whose item-level evaluation is true, preserves their relative order (the
result is a sublist of the original), and every value of the original that
no longer occurs failed the predicate. -/
theorem c5_filter_spec (gas : Nat) (target : String) (predicate : Predicate)
    (ex : ExecState) (mgr : CollectionManager) (C : Collection)
    (hmgr : ex.world.collectionManager = some mgr)
    (hc : mgr.get target = some C) :
    (execute_operation gas (.filter target predicate) ex).2 = .ok ∧
    (∃ mgr2 C2,
      (execute_operation gas (.filter target predicate) ex).1.world.collectionManager =
          some mgr2 ∧
        mgr2.get target = some C2 ∧
        C2.items = C.items.filter (fun item => evaluate_item_predicate predicate item) ∧
        (∀ x ∈ C2.items, evaluate_item_predicate predicate x = true) ∧
        C2.items.Sublist C.items ∧
        (∀ x ∈ C.items, x ∉ C2.items → evaluate_item_predicate predicate x = false)) := by
  simp only [execute_operation, hmgr, hc]
  refine ⟨trivial, ?_⟩
  refine ⟨_, C.filter (fun item => evaluate_item_predicate predicate item),
    rfl, ?_, ?_, ?_, ?_, ?_⟩
  · simp [CollectionManager.get, CollectionManager.set, alistGet, alistInsert]
  · simp [Collection.filter]
  · intro x hx
    exact (List.mem_filter.mp hx).2
  · exact List.filter_sublist _
  · intro x hx hnot
    by_contra hp
    exact hnot (List.mem_filter.mpr ⟨hx, by simpa using hp⟩)

/-- C5 witness: filtering a two-element collection on `correct == false`
keeps only the failing item; the theorem applied at that input. -/
theorem c5_filter_spec_witness :
    (execute_operation 0
        (.filter "c" (.equals "correct" (.bool false)))
        ⟨EffectExecutor.new, EffectContext.new "k" "e", GameState.new,
          ⟨none, none, none,
            some ⟨[("c", ⟨[.object [("correct", .bool true)],
                           .object [("correct", .bool false)]]⟩)]⟩⟩,
          fun _ => 0, 0⟩).2 = .ok ∧
    (∃ mgr2 C2,
      (execute_operation 0
          (.filter "c" (.equals "correct" (.bool false)))
          ⟨EffectExecutor.new, EffectContext.new "k" "e", GameState.new,
            ⟨none, none, none,
              some ⟨[("c", ⟨[.object [("correct", .bool true)],
                             .object [("correct", .bool false)]]⟩)]⟩⟩,
            fun _ => 0, 0⟩).1.world.collectionManager = some mgr2 ∧
        mgr2.get "c" = some C2 ∧
        C2.items = List.filter
          (fun item => evaluate_item_predicate (.equals "correct" (.bool false)) item)
          [.object [("correct", .bool true)], .object [("correct", .bool false)]] ∧
        (∀ x ∈ C2.items,
          evaluate_item_predicate (.equals "correct" (.bool false)) x = true) ∧
        C2.items.Sublist
          [.object [("correct", .bool true)], .object [("correct", .bool false)]] ∧
        (∀ x ∈ [Value.object [("correct", .bool true)],
                Value.object [("correct", .bool false)]], x ∉ C2.items →
          evaluate_item_predicate (.equals "correct" (.bool false)) x = false)) :=
  c5_filter_spec 0 "c" (.equals "correct" (.bool false))
    ⟨EffectExecutor.new, EffectContext.new "k" "e", GameState.new,
      ⟨none, none, none,
        some ⟨[("c", ⟨[.object [("correct", .bool true)],
                       .object [("correct", .bool false)]]⟩)]⟩⟩,
      fun _ => 0, 0⟩
    ⟨[("c", ⟨[.object [("correct", .bool true)],
              .object [("correct", .bool false)]]⟩)]⟩
    ⟨[.object [("correct", .bool true)], .object [("correct", .bool false)]]⟩ rfl rfl

/-- C9: EmitEvent with no registered listener for the event returns Ok and
leaves the whole execution state — in particular every context variable —
untouched: the `event.`-prefixed merge of the data map is skipped entirely
together with the listener dispatch. -/
theorem c9_emit_event_no_listener_noop (gas : Nat) (event : String)
    (data : Option (List (String × Value))) (ex : ExecState)
    (hno : ex.executor.get_event_listeners event = none) :
    execute_operation gas (.emitEvent event data) ex = (ex, .ok) := by
  simp [execute_operation, execute_emit_event, hno]

/-- C9 witness: emitting an event with a non-empty data map on an executor
with no listeners; the theorem applied at that input. -/
theorem c9_emit_event_no_listener_noop_witness :
    execute_operation 0 (.emitEvent "scored" (some [("points", .int 5)]))
        ⟨EffectExecutor.new, EffectContext.new "k" "e", GameState.new,
          ⟨none, none, none, none⟩, fun _ => 0, 0⟩ =
      (⟨EffectExecutor.new, EffectContext.new "k" "e", GameState.new,
        ⟨none, none, none, none⟩, fun _ => 0, 0⟩, .ok) :=
  c9_emit_event_no_listener_noop 0 "scored" (some [("points", .int 5)])
    ⟨EffectExecutor.new, EffectContext.new "k" "e", GameState.new,
      ⟨none, none, none, none⟩, fun _ => 0, 0⟩ rfl

/-- C10: ForEach over a collection path absent from the CollectionManager is
a silent no-op: it returns Ok, the body never runs, and the execution state
— in particular the `item` and `index` context variables — is returned
unchanged. -/
theorem c10_for_each_missing_collection_noop (gas : Nat) (collection : String)
    (operations : List EffectOperation) (ex : ExecState) (mgr : CollectionManager)
    (hmgr : ex.world.collectionManager = some mgr)
    (habs : mgr.get collection = none) :
    execute_operation gas (.forEach collection operations) ex = (ex, .ok) := by
  simp [execute_operation, hmgr, habs, execute_for_each]

/-- C10 witness: ForEach over a missing path with a body that would set a
variable; the theorem applied at that input. -/
theorem c10_for_each_missing_collection_noop_witness :
    execute_operation 0 (.forEach "ghost" [.setVariable "n" (.int 1)])
        ⟨EffectExecutor.new, EffectContext.new "k" "e", GameState.new,
          ⟨none, none, none, some ⟨[]⟩⟩, fun _ => 0, 0⟩ =
      (⟨EffectExecutor.new, EffectContext.new "k" "e", GameState.new,
        ⟨none, none, none, some ⟨[]⟩⟩, fun _ => 0, 0⟩, .ok) :=
  c10_for_each_missing_collection_noop 0 "ghost" [.setVariable "n" (.int 1)]
    ⟨EffectExecutor.new, EffectContext.new "k" "e", GameState.new,
      ⟨none, none, none, some ⟨[]⟩⟩, fun _ => 0, 0⟩ ⟨[]⟩ rfl rfl

/-- The while loop under an always-true condition and an always-succeeding
body: with `fuel` permitted iterations it runs the body exactly `fuel`
times, returns `MaxIterationsReached`, and the final state is the
`fuel`-fold iterate of the body step — nothing is rolled back. -/
theorem execute_while_always_true (gas : Nat) (cond : Predicate)
    (body : List EffectOperation)
    (hcond : ∀ (context : EffectContext) (state : GameState) (world : World),
      EffectExecutor.evaluate_predicate cond context state world = .ok true)
    (hbody : ∀ ex : ExecState, (execute_operations gas body ex).2 = .ok) :
    ∀ (fuel : Nat) (ex : ExecState),
      execute_while gas cond body fuel ex =
        ((fun e => (execute_operations gas body e).1)^[fuel] ex,
         .err .maxIterationsReached) := by
  intro fuel
  induction fuel with
  | zero =>
    intro ex
    rw [execute_while, hcond]
    simp
  | succ n ih =>
    intro ex
    rw [execute_while, hcond]
    have h3 : execute_operations gas body ex =
        ((execute_operations gas body ex).1, .ok) := by
      have h2 := hbody ex
      rw [Prod.ext_iff]
      exact ⟨rfl, h2⟩
    rw [h3]
    simp only [ih, Function.iterate_succ_apply]

/-- C2 (corrected), counterexample to the claim as stated: a While whose
condition (`And([])`) always evaluates true, with `max_iterations = 3`, but
whose body fails (`Add` on the unknown path "nope"), returns
`InvalidPath("nope")` after the first body attempt — not
`MaxIterationsReached` after 3 body executions. -/
theorem c2_counterexample :
    (execute_operation 0 (.whileLoop (.and []) [.add "nope" 1] (some 3))
        ⟨EffectExecutor.new, EffectContext.new "k" "e", GameState.new,
          ⟨none, none, none, none⟩, fun _ => 0, 0⟩).2 = .err (.invalidPath "nope") ∧
    (execute_operation 0 (.whileLoop (.and []) [.add "nope" 1] (some 3))
        ⟨EffectExecutor.new, EffectContext.new "k" "e", GameState.new,
          ⟨none, none, none, none⟩, fun _ => 0, 0⟩).2 ≠ .err .maxIterationsReached := by
  have hadd : GameState.add GameState.new "nope" 1 ⟨none, none, none, none⟩ =
      (GameState.new, ⟨none, none, none, none⟩, false) := rfl
  have h : (execute_operation 0 (.whileLoop (.and []) [.add "nope" 1] (some 3))
      ⟨EffectExecutor.new, EffectContext.new "k" "e", GameState.new,
        ⟨none, none, none, none⟩, fun _ => 0, 0⟩).2 = .err (.invalidPath "nope") := by
    rw [execute_operation]
    simp only [Option.getD_some]
    rw [execute_while]
    simp only [show EffectExecutor.evaluate_predicate (.and [])
        (EffectContext.new "k" "e") GameState.new ⟨none, none, none, none⟩ =
        .ok true from rfl]
    rw [execute_operations, execute_operation]
    simp [hadd]
  exact ⟨h, by simp [h]⟩

/-- C2 (amended): for every While whose condition always evaluates true,
whose body executions all succeed, and whose `max_iterations` is `m` (100
when unspecified), execution returns `MaxIterationsReached` and the final
state is exactly the `m`-fold iterate of the body — the body ran exactly
`m` times and every mutation of those runs remains applied. -/
theorem c2_while_max_iterations (gas m : Nat) (cond : Predicate)
    (body : List EffectOperation) (ex0 : ExecState)
    (hcond : ∀ (context : EffectContext) (state : GameState) (world : World),
      EffectExecutor.evaluate_predicate cond context state world = .ok true)
    (hbody : ∀ ex : ExecState, (execute_operations gas body ex).2 = .ok) :
    execute_operation gas (.whileLoop cond body (some m)) ex0 =
      ((fun e => (execute_operations gas body e).1)^[m] ex0,
       .err .maxIterationsReached) ∧
    execute_operation gas (.whileLoop cond body none) ex0 =
      ((fun e => (execute_operations gas body e).1)^[100] ex0,
       .err .maxIterationsReached) := by
  constructor
  · rw [execute_operation]
    exact execute_while_always_true gas cond body hcond hbody m ex0
  · rw [execute_operation]
    exact execute_while_always_true gas cond body hcond hbody 100 ex0

/-- C2 witness: the amended theorem applied to an always-true condition
(`And([])`), an always-succeeding body (`SetVariable`) and `m = 2`. -/
theorem c2_while_max_iterations_witness :
    execute_operation 0 (.whileLoop (.and []) [.setVariable "x" (.int 1)] (some 2))
        ⟨EffectExecutor.new, EffectContext.new "k" "e", GameState.new,
          ⟨none, none, none, none⟩, fun _ => 0, 0⟩ =
      ((fun e => (execute_operations 0 [.setVariable "x" (.int 1)] e).1)^[2]
        ⟨EffectExecutor.new, EffectContext.new "k" "e", GameState.new,
          ⟨none, none, none, none⟩, fun _ => 0, 0⟩,
       .err .maxIterationsReached) ∧
    execute_operation 0 (.whileLoop (.and []) [.setVariable "x" (.int 1)] none)
        ⟨EffectExecutor.new, EffectContext.new "k" "e", GameState.new,
          ⟨none, none, none, none⟩, fun _ => 0, 0⟩ =
      ((fun e => (execute_operations 0 [.setVariable "x" (.int 1)] e).1)^[100]
        ⟨EffectExecutor.new, EffectContext.new "k" "e", GameState.new,
          ⟨none, none, none, none⟩, fun _ => 0, 0⟩,
       .err .maxIterationsReached) :=
  c2_while_max_iterations 0 2 (.and []) [.setVariable "x" (.int 1)]
    ⟨EffectExecutor.new, EffectContext.new "k" "e", GameState.new,
      ⟨none, none, none, none⟩, fun _ => 0, 0⟩
    (fun _ _ _ => rfl)
    (fun ex => by simp [execute_operations, execute_operation])

/-- Lookup after insert at the same key. -/
theorem alistGet_insert_self {A : Type} (m : List (String × A)) (k : String) (v : A) :
    alistGet (alistInsert m k v) k = some v := by
  simp [alistGet, alistInsert]

/-- Lookup after insert at a different key. -/
theorem alistGet_insert_ne {A : Type} (m : List (String × A)) (k k2 : String) (v : A)
    (h : k2 ≠ k) : alistGet (alistInsert m k v) k2 = alistGet m k2 := by
  simp only [alistGet, alistInsert]
  have hk : (k == k2) = false := by simp [Ne.symm h]
  simp only [List.find?_cons, hk]
  congr 1
  induction m with
  | nil => rfl
  | cons e rest ih =>
    by_cases he : e.1 = k2
    · have h1 : (e.1 != k) = true := by simp [he, h]
      simp [List.filter_cons, h1, List.find?_cons, he, h, hk, ih]
    · by_cases hek : e.1 = k
      · simp [List.filter_cons, List.find?_cons, he, hek, h, hk, ih]
      · simp [List.filter_cons, List.find?_cons, he, hek, h, hk, ih]

/-- `i32cast` is the identity on the `i32` range. -/
theorem i32cast_eq_self (n : Int) (h1 : -(2 ^ 31) ≤ n) (h2 : n < 2 ^ 31) :
    i32cast n = n := by
  unfold i32cast
  omega

/-- One iteration of the ForEach loop
(src/effect_executor/control_flow.rs:102-110): set `item` and `index`
(0-based, cast to i32) and run the body, keeping its final state. -/
def forEachStep (gas : Nat) (body : List EffectOperation) (iv : Nat × Value)
    (ex : ExecState) : ExecState :=
  let context1 :=
    (ex.context.set_variable "item" iv.2).set_variable "index"
      (.int (i32cast (iv.1 : Int)))
  (execute_operations gas body { ex with context := context1 }).1

/-- After one ForEach iteration whose body leaves `item` and `index` alone,
those context variables hold exactly the iterated element and its i32-cast
position. -/
theorem forEachStep_vars (gas : Nat) (body : List EffectOperation)
    (hpres : ∀ ex : ExecState,
      (execute_operations gas body ex).1.context.get_variable "item" =
          ex.context.get_variable "item" ∧
        (execute_operations gas body ex).1.context.get_variable "index" =
          ex.context.get_variable "index")
    (iv : Nat × Value) (ex : ExecState) :
    (forEachStep gas body iv ex).context.get_variable "item" = some iv.2 ∧
    (forEachStep gas body iv ex).context.get_variable "index" =
      some (.int (i32cast (iv.1 : Int))) := by
  unfold forEachStep
  constructor
  · rw [(hpres _).1]
    simp only [EffectContext.set_variable, EffectContext.get_variable]
    rw [alistGet_insert_ne _ _ _ _ (by decide), alistGet_insert_self]
  · rw [(hpres _).2]
    simp only [EffectContext.set_variable, EffectContext.get_variable]
    rw [alistGet_insert_self]

/-- With an always-succeeding body, the ForEach loop over a snapshot is the
left fold of `forEachStep` over the index-paired snapshot, and it returns
Ok. -/
theorem execute_for_each_fold (gas : Nat) (body : List EffectOperation)
    (hbody : ∀ ex : ExecState, (execute_operations gas body ex).2 = .ok) :
    ∀ (items : List Value) (i0 : Nat) (ex : ExecState),
      execute_for_each gas body items i0 ex =
        ((items.enumFrom i0).foldl (fun e iv => forEachStep gas body iv e) ex, .ok) := by
  intro items
  induction items with
  | nil =>
    intro i0 ex
    rw [execute_for_each]
    simp [List.enumFrom]
  | cons item rest ih =>
    intro i0 ex
    rw [execute_for_each]
    have h3 : ∀ ex2 : ExecState, execute_operations gas body ex2 =
        ((execute_operations gas body ex2).1, .ok) := by
      intro ex2
      rw [Prod.ext_iff]
      exact ⟨rfl, hbody ex2⟩
    rw [h3]
    simp only [ih, List.enumFrom, List.foldl_cons]
    simp [forEachStep]

/-- With a body that succeeds and does not touch the `item`/`index`
variables, after the loop over a non-empty snapshot the context holds the
last snapshot element in `item` and the last 0-based position (cast to i32)
in `index`. -/
theorem execute_for_each_last_vars (gas : Nat) (body : List EffectOperation)
    (hpres : ∀ ex : ExecState,
      (execute_operations gas body ex).1.context.get_variable "item" =
          ex.context.get_variable "item" ∧
        (execute_operations gas body ex).1.context.get_variable "index" =
          ex.context.get_variable "index") :
    ∀ (items : List Value) (hne : items ≠ []) (i0 : Nat) (ex : ExecState),
      ((items.enumFrom i0).foldl (fun e iv => forEachStep gas body iv e)
          ex).context.get_variable "item" = some (items.getLast hne) ∧
      ((items.enumFrom i0).foldl (fun e iv => forEachStep gas body iv e)
          ex).context.get_variable "index" =
        some (.int (i32cast ((i0 + items.length - 1 : Nat) : Int))) := by
  intro items
  induction items with
  | nil => intro hne; exact absurd rfl hne
  | cons item rest ih =>
    intro hne i0 ex
    cases rest with
    | nil =>
      simp only [List.enumFrom, List.foldl_cons, List.foldl_nil]
      have h := forEachStep_vars gas body hpres (i0, item) ex
      refine ⟨?_, ?_⟩
      · rw [h.1]
        simp [List.getLast]
      · rw [h.2]
        norm_num
    | cons b t =>
      have hne2 : b :: t ≠ [] := by simp
      simp only [List.enumFrom, List.foldl_cons]
      have hrec := ih hne2 (i0 + 1) (forEachStep gas body (i0, item) ex)
      simp only [List.enumFrom, List.foldl_cons] at hrec
      refine ⟨?_, ?_⟩
      · rw [hrec.1]
        simp [List.getLast]
      · rw [hrec.2]
        have harith : i0 + 1 + (b :: t).length - 1 = i0 + (item :: b :: t).length - 1 := by
          simp
          omega
        rw [harith]

/-- C3 (corrected), counterexample to the claim as stated: ForEach over the
one-element collection `["a"]` with the (always succeeding) body
`[SetVariable("item", 0)]` completes Ok, but afterwards the context variable
`item` holds `Int(0)` — the value the body wrote — and not the last snapshot
element `String("a")`. -/
theorem c3_counterexample :
    (execute_operation 0 (.forEach "c" [.setVariable "item" (.int 0)])
        ⟨EffectExecutor.new, EffectContext.new "k" "e", GameState.new,
          ⟨none, none, none, some ⟨[("c", ⟨[.string "a"]⟩)]⟩⟩, fun _ => 0, 0⟩).2 = .ok ∧
    (execute_operation 0 (.forEach "c" [.setVariable "item" (.int 0)])
        ⟨EffectExecutor.new, EffectContext.new "k" "e", GameState.new,
          ⟨none, none, none, some ⟨[("c", ⟨[.string "a"]⟩)]⟩⟩,
          fun _ => 0, 0⟩).1.context.get_variable "item" = some (.int 0) ∧
    (execute_operation 0 (.forEach "c" [.setVariable "item" (.int 0)])
        ⟨EffectExecutor.new, EffectContext.new "k" "e", GameState.new,
          ⟨none, none, none, some ⟨[("c", ⟨[.string "a"]⟩)]⟩⟩,
          fun _ => 0, 0⟩).1.context.get_variable "item" ≠ some (.string "a") := by
  refine ⟨?_, ?_, ?_⟩ <;>
    simp [execute_operation, execute_for_each, execute_operations,
      CollectionManager.get, alistGet, alistInsert, EffectContext.set_variable,
      EffectContext.get_variable]

/-- C3 (amended): for a ForEach over an existing non-empty collection whose
body operations all succeed and do not themselves write the `item`/`index`
variables, execution equals the left fold of the per-item step (set `item`
to the element and `index` to its 0-based position, then run the body) over
the snapshot taken at the start — the body runs exactly n times and
mutations of the collection during the loop cannot change the iterated
items — and afterwards `item` holds the last snapshot element and `index`
holds n-1. -/
theorem c3_for_each_spec (gas : Nat) (collection : String)
    (body : List EffectOperation) (ex0 : ExecState) (mgr : CollectionManager)
    (C : Collection)
    (hmgr : ex0.world.collectionManager = some mgr)
    (hc : mgr.get collection = some C)
    (hne : C.items ≠ [])
    (hsize : C.items.length ≤ 2 ^ 31)
    (hbody : ∀ ex : ExecState, (execute_operations gas body ex).2 = .ok)
    (hpres : ∀ ex : ExecState,
      (execute_operations gas body ex).1.context.get_variable "item" =
          ex.context.get_variable "item" ∧
        (execute_operations gas body ex).1.context.get_variable "index" =
          ex.context.get_variable "index") :
    execute_operation gas (.forEach collection body) ex0 =
      ((C.items.enumFrom 0).foldl (fun e iv => forEachStep gas body iv e) ex0,
       .ok) ∧
    (execute_operation gas
        (.forEach collection body) ex0).1.context.get_variable "item" =
      some (C.items.getLast hne) ∧
    (execute_operation gas
        (.forEach collection body) ex0).1.context.get_variable "index" =
      some (.int ((C.items.length - 1 : Nat) : Int)) := by
  have h1 : execute_operation gas (.forEach collection body) ex0 =
      execute_for_each gas body C.items 0 ex0 := by
    simp [execute_operation, hmgr, hc]
  have hfold := execute_for_each_fold gas body hbody C.items 0 ex0
  have hlast := execute_for_each_last_vars gas body hpres C.items hne 0 ex0
  refine ⟨by rw [h1, hfold], ?_, ?_⟩
  · rw [h1, hfold]
    exact hlast.1
  · rw [h1, hfold]
    rw [hlast.2]
    have hb : (0 + C.items.length - 1 : Nat) = C.items.length - 1 := by omega
    rw [hb, i32cast_eq_self]
    · omega
    · have hl : 0 < C.items.length := List.length_pos.mpr hne
      omega

/-- C3 witness: the amended theorem applied to a two-element collection and
the body `[SetVariable("x", 7)]`, which succeeds everywhere and leaves
`item`/`index` alone. -/
theorem c3_for_each_spec_witness :
    execute_operation 0 (.forEach "c" [.setVariable "x" (.int 7)])
        ⟨EffectExecutor.new, EffectContext.new "k" "e", GameState.new,
          ⟨none, none, none, some ⟨[("c", ⟨[.string "a", .string "b"]⟩)]⟩⟩,
          fun _ => 0, 0⟩ =
      (([Value.string "a", Value.string "b"].enumFrom 0).foldl
        (fun e iv => forEachStep 0 [.setVariable "x" (.int 7)] iv e)
        ⟨EffectExecutor.new, EffectContext.new "k" "e", GameState.new,
          ⟨none, none, none, some ⟨[("c", ⟨[.string "a", .string "b"]⟩)]⟩⟩,
          fun _ => 0, 0⟩, .ok) ∧
    (execute_operation 0 (.forEach "c" [.setVariable "x" (.int 7)])
        ⟨EffectExecutor.new, EffectContext.new "k" "e", GameState.new,
          ⟨none, none, none, some ⟨[("c", ⟨[.string "a", .string "b"]⟩)]⟩⟩,
          fun _ => 0, 0⟩).1.context.get_variable "item" =
      some ([Value.string "a", Value.string "b"].getLast (by simp)) ∧
    (execute_operation 0 (.forEach "c" [.setVariable "x" (.int 7)])
        ⟨EffectExecutor.new, EffectContext.new "k" "e", GameState.new,
          ⟨none, none, none, some ⟨[("c", ⟨[.string "a", .string "b"]⟩)]⟩⟩,
          fun _ => 0, 0⟩).1.context.get_variable "index" =
      some (.int ((([Value.string "a", Value.string "b"].length - 1 : Nat)) : Int)) :=
  c3_for_each_spec 0 "c" [.setVariable "x" (.int 7)]
    ⟨EffectExecutor.new, EffectContext.new "k" "e", GameState.new,
      ⟨none, none, none, some ⟨[("c", ⟨[.string "a", .string "b"]⟩)]⟩⟩,
      fun _ => 0, 0⟩
    ⟨[("c", ⟨[.string "a", .string "b"]⟩)]⟩ ⟨[.string "a", .string "b"]⟩
    rfl rfl (by simp) (by norm_num)
    (fun ex => by simp [execute_operations, execute_operation])
    (fun ex => by
      have h1 := alistGet_insert_ne ex.context.vars "x" "item" (.int 7) (by decide)
      have h2 := alistGet_insert_ne ex.context.vars "x" "index" (.int 7) (by decide)
      constructor <;>
        simp [execute_operations, execute_operation, EffectContext.set_variable,
          EffectContext.get_variable, h1, h2])

end Cgq
